import Mathlib

/-!
Verification of the priority-list reconciliation and change-detection core of
the sound-stack Raycast extension.  Every definition below is a shallow
embedding of a function from the TypeScript sources (`priority-utils.ts`,
`priority-monitor.tsx`, `priority-refresh.tsx`, `priority-list.tsx`, and the
storage helper module).  JavaScript strings are modelled by `String`,
`toLowerCase` by `jsToLower`, arrays by `List`, `findIndex` by
`List.findIdx?` (index `-1` becomes `none`), `Infinity` sentinels by
`Option Nat`, and the for-loops by structurally recursive helpers carrying the
loop accumulator.
-/

/-- JavaScript `toLowerCase` as the per-character ASCII case mapping applied to
the character list of a string.  This is extensionally the map that
`String.toLower` performs, written so that the kernel can evaluate it on
concrete inputs. -/
def jsToLower (s : String) : String := String.mk (s.data.map Char.toLower)

/-- A macOS audio device as returned by the device-enumeration capability
(`audio-device.ts`): `{ id, uid, name, transportType, isInput, isOutput }`. -/
structure AudioDevice where
  id : String
  uid : String
  name : String
  transportType : String
  isInput : Bool
  isOutput : Bool
deriving DecidableEq, Repr

/-- Stored identity snapshot of a device (`StoredDeviceInfo` in
`priority-utils.ts`): `{ name, transportType }`. -/
structure StoredDeviceInfo where
  name : String
  transportType : String
deriving DecidableEq, Repr

/-- One step of the `findIndex` rank computation shared by all three copies of
`getHighestPriorityDevice`: the 1-based index of the first priority-list entry
matching the device name case-insensitively, `none` when `findIndex`
returns `-1`. -/
def deviceRank (priorityList : List String) (device : AudioDevice) : Option Nat :=
  (priorityList.findIdx? (fun name => jsToLower name == jsToLower device.name)).map (· + 1)

/-- The loop body of `getHighestPriorityDevice` (`priority-utils.ts`, lines
94-111), carrying the mutable `highestPriorityDevice` and
`highestPriorityRank` accumulators; `highestPriorityRank = Infinity` is the
`none` case of the second accumulator. -/
def getHighestPriorityDeviceGo (priorityList : List String) :
    List AudioDevice → Option AudioDevice → Option Nat → Option AudioDevice
  | [], best, _ => best
  | device :: rest, best, bestRank =>
    match deviceRank priorityList device with
    | none => getHighestPriorityDeviceGo priorityList rest best bestRank
    | some rank =>
      match bestRank with
      | none => getHighestPriorityDeviceGo priorityList rest (some device) (some rank)
      | some br =>
        if rank < br then getHighestPriorityDeviceGo priorityList rest (some device) (some rank)
        else getHighestPriorityDeviceGo priorityList rest best bestRank

/-- The exported `getHighestPriorityDevice` of `priority-utils.ts`. -/
def getHighestPriorityDevice (devices : List AudioDevice) (priorityList : List String) :
    Option AudioDevice :=
  getHighestPriorityDeviceGo priorityList devices none none

/-- Loop body of the local `getHighestPriorityDevice` defined inline in
`priority-monitor.tsx` (lines 253-270); textually the same loop as the
exported one. -/
def monitorGetHighestPriorityDeviceGo (priorityList : List String) :
    List AudioDevice → Option AudioDevice → Option Nat → Option AudioDevice
  | [], best, _ => best
  | device :: rest, best, bestRank =>
    match deviceRank priorityList device with
    | none => monitorGetHighestPriorityDeviceGo priorityList rest best bestRank
    | some rank =>
      match bestRank with
      | none => monitorGetHighestPriorityDeviceGo priorityList rest (some device) (some rank)
      | some br =>
        if rank < br then
          monitorGetHighestPriorityDeviceGo priorityList rest (some device) (some rank)
        else monitorGetHighestPriorityDeviceGo priorityList rest best bestRank

/-- The local `getHighestPriorityDevice` of `priority-monitor.tsx`. -/
def monitorGetHighestPriorityDevice (devices : List AudioDevice) (priorityList : List String) :
    Option AudioDevice :=
  monitorGetHighestPriorityDeviceGo priorityList devices none none

/-- Loop body of the local `getHighestPriorityDevice` defined inline in
`priority-refresh.tsx` (lines 73-90); textually the same loop as the exported
one. -/
def refreshGetHighestPriorityDeviceGo (priorityList : List String) :
    List AudioDevice → Option AudioDevice → Option Nat → Option AudioDevice
  | [], best, _ => best
  | device :: rest, best, bestRank =>
    match deviceRank priorityList device with
    | none => refreshGetHighestPriorityDeviceGo priorityList rest best bestRank
    | some rank =>
      match bestRank with
      | none => refreshGetHighestPriorityDeviceGo priorityList rest (some device) (some rank)
      | some br =>
        if rank < br then
          refreshGetHighestPriorityDeviceGo priorityList rest (some device) (some rank)
        else refreshGetHighestPriorityDeviceGo priorityList rest best bestRank

/-- The local `getHighestPriorityDevice` of `priority-refresh.tsx`. -/
def refreshGetHighestPriorityDevice (devices : List AudioDevice) (priorityList : List String) :
    Option AudioDevice :=
  refreshGetHighestPriorityDeviceGo priorityList devices none none

/-- Reference recursion used to reason about the accumulator loop: the best
ranked device of a list together with its rank, earlier devices winning ties. -/
def pickBest (priorityList : List String) : List AudioDevice → Option (AudioDevice × Nat)
  | [] => none
  | device :: rest =>
    match deviceRank priorityList device with
    | none => pickBest priorityList rest
    | some r =>
      match pickBest priorityList rest with
      | none => some (device, r)
      | some (d', r') => if r ≤ r' then some (device, r) else some (d', r')

/-- The device `d` sits at the first position of `devices` attaining the
minimal rank of `priorityList`: everything before it has strictly larger rank
(or no rank), everything after has larger-or-equal rank (or no rank). -/
def FirstAtMinimalRank (devices : List AudioDevice) (priorityList : List String)
    (d : AudioDevice) : Prop :=
  ∃ pre post r, devices = pre ++ d :: post ∧ deviceRank priorityList d = some r ∧
    (∀ x ∈ pre, ∀ s, deviceRank priorityList x = some s → r < s) ∧
    (∀ x ∈ post, ∀ s, deviceRank priorityList x = some s → r ≤ s)

/-- Scenario device from the spec: the built-in speakers. -/
def macbookProSpeakers : AudioDevice :=
  { id := "76", uid := "BuiltInSpeakerDevice", name := "MacBook Pro Speakers",
    transportType := "builtin", isInput := false, isOutput := true }

/-- Scenario device from the spec: the AirPods. -/
def airPodsDevice : AudioDevice :=
  { id := "85", uid := "airpods-uid", name := "AirPods",
    transportType := "bluetooth", isInput := false, isOutput := true }

/-- Body of the `for (const device of current)` loop of `mergeDeviceInfo`
(`priority-utils.ts`, lines 80-89): `findIndex` uses the exact string equality
`info.name === device.name`; a hit overwrites that slot, a miss pushes the new
record at the end. -/
def mergeStep (merged : List StoredDeviceInfo) (device : AudioDevice) : List StoredDeviceInfo :=
  let deviceInfo : StoredDeviceInfo := { name := device.name, transportType := device.transportType }
  match merged.findIdx? (fun info => info.name == device.name) with
  | some existingIndex => merged.set existingIndex deviceInfo
  | none => merged ++ [deviceInfo]

/-- The function `mergeDeviceInfo` of `priority-utils.ts` (lines 77-92): fold of the loop
body over the `current` snapshot starting from the copied `existing` list. -/
def mergeDeviceInfo (existing : List StoredDeviceInfo) (current : List AudioDevice) :
    List StoredDeviceInfo :=
  current.foldl mergeStep existing

/-- Pure core of `ensureAllDevicesInPriorityList` (storage helper module,
lines 97-118): append the names of live devices missing from the priority
list, case-insensitive membership test via `some`. -/
def ensureAllDevicesInPriorityList (devices : List AudioDevice)
    (currentPriorityList : List String) : List String :=
  let allDeviceNames := devices.map (fun d => d.name)
  let missingDevices := allDeviceNames.filter
    (fun name => !(currentPriorityList.any (fun priorityName => jsToLower priorityName == jsToLower name)))
  currentPriorityList ++ missingDevices

/-- The auto-append step written inline in `ListDevices`
(`priority-list.tsx`, lines 148-162): filter the devices, then append their
names. -/
def listDevicesAutoAppend (devices : List AudioDevice) (priorityList : List String) :
    List String :=
  let newDevices := devices.filter
    (fun device => !(priorityList.any (fun name => jsToLower name == jsToLower device.name)))
  priorityList ++ newDevices.map (fun d => d.name)

/-- Number of case-insensitive occurrences of a name in a list of names. -/
def countName (l : List String) (n : String) : Nat :=
  (l.map jsToLower).count (jsToLower n)

/-- Pure core of `moveUp` (`priority-list.tsx`, lines 285-315): locate the
device name case-insensitively with `findIndex`; when the index is positive,
swap the entry with the one above it, otherwise leave the list unchanged.  The
JavaScript destructuring swap writes index `currentIndex` first, then
`currentIndex - 1`; out-of-range defaults of `getD` are never used because
`findIndex` only returns in-range indices. -/
def moveUp (currentList : List String) (deviceName : String) : List String :=
  match currentList.findIdx? (fun name => jsToLower name == jsToLower deviceName) with
  | none => currentList
  | some currentIndex =>
    if currentIndex > 0 then
      let atIdx := currentList.getD currentIndex ""
      let above := currentList.getD (currentIndex - 1) ""
      (currentList.set currentIndex above).set (currentIndex - 1) atIdx
    else currentList

/-- Outcome of `JSON.parse` on a persisted blob, abstracting the external
JSON library: the call either raises, yields an array (whose elements the code
never validates; we model the name-array payload), or yields a non-array
value.  A blob is represented by its parse outcome. -/
inductive ParseOutcome where
  | raises
  | arrayOf (names : List String)
  | nonArray
deriving DecidableEq, Repr

/-- The `try` block of `getOutputPriorityList` (`priority-utils.ts`, lines
21-32): missing or empty stored value short-circuits to `[]`; `JSON.parse`
may raise; `Array.isArray` guards the non-array case to `[]`. -/
def getOutputPriorityListBody (parse : String → ParseOutcome) (stored : Option String) :
    Except Unit (List String) :=
  match stored with
  | none => Except.ok []
  | some s =>
    if s.isEmpty then Except.ok []
    else
      match parse s with
      | ParseOutcome.raises => Except.error ()
      | ParseOutcome.arrayOf parsed => Except.ok parsed
      | ParseOutcome.nonArray => Except.ok []

/-- The function `getOutputPriorityList` with its `catch` handler: on a raised parse error
the record is removed (second component `true`) and `[]` is returned; the
identically-shaped `getInputPriorityList` differs only in the storage key.
Result: (returned list, whether the stored record was removed). -/
def getOutputPriorityList (parse : String → ParseOutcome) (stored : Option String) :
    List String × Bool :=
  match getOutputPriorityListBody parse stored with
  | Except.ok xs => (xs, false)
  | Except.error _ => ([], true)

/-- The cached verdict persisted under `priority-monitor-state`
(`CachedState` in `priority-monitor.tsx`): every field is optional because the
JSON blob may lack it. -/
structure CachedState where
  outputUID : Option String := none
  inputUID : Option String := none
  outputPriorityList : Option (List String) := none
  inputPriorityList : Option (List String) := none
  lastUpdate : Option Nat := none
deriving DecidableEq, Repr

/-- STEP 3.1 of the monitor: the cached priority list (defaulting to `[]`)
filtered down to names of currently available devices; the available names are
lowercased once and membership is `includes` on that lowered list. -/
def availablePriorities (cachedList : Option (List String))
    (availableDevices : List AudioDevice) : List String :=
  let availableNames := availableDevices.map (fun device => jsToLower device.name)
  (cachedList.getD []).filter (fun deviceName => availableNames.contains (jsToLower deviceName))

/-- The per-class optimality test of STEP 3.1:
`length === 0 || list[0]?.toLowerCase() === current.name.toLowerCase()`. -/
def isClassOptimal (availPriorities : List String) (currentName : String) : Bool :=
  availPriorities.length == 0 ||
    (match availPriorities.head? with
     | some h => jsToLower h == jsToLower currentName
     | none => false)

/-- The gate decision of `PriorityMonitor` (lines 80-188):
`priorityListChanged || deviceChanged || priorityMismatch`, computed from the
dirty flags, the cached uids against the active devices, and the per-class
optimality of the filtered cached priority lists. -/
def needsFullCheck (cached : CachedState) (outputDirty inputDirty : Bool)
    (currentOutput currentInput : AudioDevice)
    (availableOutputDevices availableInputDevices : List AudioDevice) : Bool :=
  let priorityListChanged := outputDirty || inputDirty
  let deviceChanged :=
    (some currentOutput.uid != cached.outputUID) || (some currentInput.uid != cached.inputUID)
  let isOutputOptimal :=
    isClassOptimal (availablePriorities cached.outputPriorityList availableOutputDevices)
      currentOutput.name
  let isInputOptimal :=
    isClassOptimal (availablePriorities cached.inputPriorityList availableInputDevices)
      currentInput.name
  let priorityMismatch := !isOutputOptimal || !isInputOptimal
  priorityListChanged || deviceChanged || priorityMismatch

/-- Claim-side reading of a per-class priority mismatch: the cached list
restricted to currently live names is non-empty and its first surviving name
differs case-insensitively from the active device name. -/
def ClassMismatchSpec (cachedList : List String) (liveDevices : List AudioDevice)
    (activeName : String) : Prop :=
  ∃ h rest,
    cachedList.filter (fun n => liveDevices.any (fun d => jsToLower d.name == jsToLower n)) = h :: rest
    ∧ jsToLower h ≠ jsToLower activeName

/-- The two user preferences read by the monitor and the refresh command. -/
structure Preferences where
  enableAutoSwitch : Bool
  systemOutput : Bool
deriving DecidableEq, Repr

/-- Structured rendering of the `updateCommandMetadata` subtitle strings the
monitor emits: `Auto-switch disabled`, `No audio devices found`,
`No devices available`, `Active: X | Y` and `Priority: X | Y`. -/
inductive MStatus where
  | autoSwitchDisabled
  | noAudioDevicesFound
  | noDevicesAvailable
  | active (outputName inputName : String)
  | priority (outputName inputName : String)
deriving DecidableEq, Repr

/-- Externally observable calls of a single monitor pass, in program order.
`getActive` is `getDefaultOutputDevice` or `getDefaultInputDevice`,
`enumerate` is `getOutputDevices` or `getInputDevices` (the `listDevices`
capability), `loadPriorityList` is `getOutputPriorityList` or
`getInputPriorityList`, the `setActive`/`setSystem` events are device-control
calls, `writeCache` is the `LocalStorage` write of the new cached verdict. -/
inductive MEvent where
  | getActive (isOutput : Bool)
  | enumerate (isOutput : Bool)
  | loadPriorityList (isOutput : Bool)
  | setActiveOutput (id : String)
  | setSystem (id : String)
  | setActiveInput (id : String)
  | writeCache (c : CachedState)
  | clearDirtyFlag (isOutput : Bool)
  | setStatus (s : MStatus)
  | hud (switched : List String)
deriving DecidableEq, Repr

/-- All inputs a monitor pass consumes from its environment: preferences,
launch type, the parsed cached verdict, the two dirty flags, the STEP 2 active
devices (`none` models a failed `getDefault*Device` call), the STEP 3.1
enumeration results, the STEP 4 enumeration and priority-list loads, whether
each device-control call would fail, and the clock value written into the new
cache. -/
structure MonitorInputs where
  prefs : Preferences
  isBackground : Bool
  cached : CachedState
  outputDirty : Bool
  inputDirty : Bool
  currentOutput : Option AudioDevice
  currentInput : Option AudioDevice
  availableOutputDevices : List AudioDevice
  availableInputDevices : List AudioDevice
  outputDevices : List AudioDevice
  inputDevices : List AudioDevice
  outputPriorityList : List String
  inputPriorityList : List String
  outputSwitchFails : Bool
  systemSwitchFails : Bool
  inputSwitchFails : Bool
  now : Nat
deriving Repr

/-- STEP 6, output class (`priority-monitor.tsx`, lines 294-315): events of
the guarded switch attempt plus the `switchedDevices` entries it pushes.  A
failing `setDefaultOutputDevice` call aborts the `try` block before the system
device call; a failing `setDefaultSystemDevice` call aborts it before the
push. -/
def switchOutputEvents (m : MonitorInputs) (currentOutput : AudioDevice)
    (topOutputDevice : Option AudioDevice) : List MEvent × List String :=
  match topOutputDevice with
  | some t =>
    if currentOutput.uid != t.uid then
      if m.outputSwitchFails then ([MEvent.setActiveOutput t.id], [])
      else if m.prefs.systemOutput then
        if m.systemSwitchFails then ([MEvent.setActiveOutput t.id, MEvent.setSystem t.id], [])
        else ([MEvent.setActiveOutput t.id, MEvent.setSystem t.id], ["Output: " ++ t.name])
      else ([MEvent.setActiveOutput t.id], ["Output: " ++ t.name])
    else ([], [])
  | none => ([], [])

/-- STEP 6, input class (`priority-monitor.tsx`, lines 318-331). -/
def switchInputEvents (m : MonitorInputs) (currentInput : AudioDevice)
    (topInputDevice : Option AudioDevice) : List MEvent × List String :=
  match topInputDevice with
  | some t =>
    if currentInput.uid != t.uid then
      if m.inputSwitchFails then ([MEvent.setActiveInput t.id], [])
      else ([MEvent.setActiveInput t.id], ["Input: " ++ t.name])
    else ([], [])
  | none => ([], [])

/-- One `PriorityMonitor` invocation (`priority-monitor.tsx`, lines 41-390)
as the ordered list of its externally observable calls.  The early exits
(auto-switch disabled, missing active device), the STEP 3.1 signal
collection, the gate, the STEP 4 reload, the no-devices abort, STEP 6
switching, the STEP 7 cache write and dirty-flag clearing, and the STEP 8
status update all follow the source line by line; `uid || fallback` keeps the
JavaScript falsiness of an empty uid string. -/
def runMonitor (m : MonitorInputs) : List MEvent :=
  if !m.prefs.enableAutoSwitch then [MEvent.setStatus MStatus.autoSwitchDisabled]
  else
    let steps2 := [MEvent.getActive true, MEvent.getActive false]
    match m.currentOutput, m.currentInput with
    | some currentOutput, some currentInput =>
      let steps31 := steps2 ++ [MEvent.enumerate true, MEvent.enumerate false]
      if needsFullCheck m.cached m.outputDirty m.inputDirty currentOutput currentInput
          m.availableOutputDevices m.availableInputDevices then
        let steps4 := steps31 ++ [MEvent.enumerate true, MEvent.enumerate false,
          MEvent.loadPriorityList true, MEvent.loadPriorityList false]
        if m.outputDevices.length == 0 || m.inputDevices.length == 0 then
          steps4 ++ [MEvent.setStatus MStatus.noDevicesAvailable]
        else
          let topOutputDevice := monitorGetHighestPriorityDevice m.outputDevices m.outputPriorityList
          let topInputDevice := monitorGetHighestPriorityDevice m.inputDevices m.inputPriorityList
          let outSwitch := if m.isBackground && m.prefs.enableAutoSwitch then
              switchOutputEvents m currentOutput topOutputDevice else ([], [])
          let inSwitch := if m.isBackground && m.prefs.enableAutoSwitch then
              switchInputEvents m currentInput topInputDevice else ([], [])
          let switchedDevices := outSwitch.2 ++ inSwitch.2
          let hudEvents := if m.isBackground && m.prefs.enableAutoSwitch then
              (if switchedDevices.length > 0 then [MEvent.hud switchedDevices] else [])
            else []
          let newOutputUID := match topOutputDevice with
            | some t => if t.uid.isEmpty then currentOutput.uid else t.uid
            | none => currentOutput.uid
          let newInputUID := match topInputDevice with
            | some t => if t.uid.isEmpty then currentInput.uid else t.uid
            | none => currentInput.uid
          let newState : CachedState :=
            { outputUID := some newOutputUID, inputUID := some newInputUID,
              outputPriorityList := some m.outputPriorityList,
              inputPriorityList := some m.inputPriorityList,
              lastUpdate := some m.now }
          let outputStatus := match topOutputDevice with
            | some t => t.name
            | none => currentOutput.name
          let inputStatus := match topInputDevice with
            | some t => t.name
            | none => currentInput.name
          (steps4 ++ outSwitch.1 ++ inSwitch.1 ++ hudEvents
            ++ [MEvent.writeCache newState]
            ++ (if m.outputDirty then [MEvent.clearDirtyFlag true] else [])
            ++ (if m.inputDirty then [MEvent.clearDirtyFlag false] else []))
          ++ [MEvent.setStatus (if m.prefs.enableAutoSwitch then
                MStatus.priority outputStatus inputStatus else MStatus.autoSwitchDisabled)]
      else
        steps31 ++ [MEvent.setStatus (MStatus.active currentOutput.name currentInput.name)]
    | _, _ => steps2 ++ [MEvent.setStatus MStatus.noAudioDevicesFound]

/-- A USB microphone used as concrete input device in witnesses. -/
def usbMicDevice : AudioDevice :=
  { id := "91", uid := "usb-mic-uid", name := "USB Mic",
    transportType := "usb", isInput := true, isOutput := false }

/-- Output device whose name differs from the AirPods only in letter case,
used to exercise the case-sensitivity counterexamples. -/
def airPodsLowercaseDevice : AudioDevice :=
  { id := "86", uid := "airpods-lc-uid", name := "airpods",
    transportType := "bluetooth", isInput := false, isOutput := true }

theorem getHighestPriorityDeviceGo_acc (priorityList : List String)
    (l : List AudioDevice) (b : AudioDevice) (br : Nat) :
    getHighestPriorityDeviceGo priorityList l (some b) (some br) =
      match pickBest priorityList l with
      | none => some b
      | some (d', r') => if r' < br then some d' else some b := by
  induction l generalizing b br with
  | nil => rfl
  | cons device rest ih =>
    simp only [getHighestPriorityDeviceGo, pickBest]
    cases hr : deviceRank priorityList device with
    | none => simp [ih]
    | some r =>
      by_cases hlt : r < br
      · simp only [hlt, if_pos, ih]
        cases hp : pickBest priorityList rest with
        | none => simp [hlt]
        | some dr =>
          obtain ⟨d', r'⟩ := dr
          by_cases h1 : r ≤ r'
          · have : ¬ r' < r := not_lt.mpr h1
            simp [h1, this, hlt]
          · have h2 : r' < r := not_le.mp h1
            simp [h1, h2, h2.trans hlt]
      · simp only [hlt, if_neg, not_false_iff, ih]
        have hbr : br ≤ r := not_lt.mp hlt
        cases hp : pickBest priorityList rest with
        | none => simp [not_lt.mpr hbr]
        | some dr =>
          obtain ⟨d', r'⟩ := dr
          by_cases h1 : r ≤ r'
          · have : ¬ r' < br := not_lt.mpr (hbr.trans h1)
            simp [h1, this, not_lt.mpr hbr]
          · simp [h1]

theorem getHighestPriorityDeviceGo_none (priorityList : List String) (l : List AudioDevice) :
    getHighestPriorityDeviceGo priorityList l none none =
      (pickBest priorityList l).map Prod.fst := by
  induction l with
  | nil => rfl
  | cons device rest ih =>
    simp only [getHighestPriorityDeviceGo, pickBest]
    cases hr : deviceRank priorityList device with
    | none => simp [ih]
    | some r =>
      dsimp only
      rw [getHighestPriorityDeviceGo_acc]
      cases hp : pickBest priorityList rest with
      | none => simp
      | some dr =>
        obtain ⟨d', r'⟩ := dr
        by_cases h1 : r ≤ r'
        · simp [h1, not_lt.mpr h1]
        · simp [h1, not_le.mp h1]

theorem pickBest_eq_none_iff (priorityList : List String) (l : List AudioDevice) :
    pickBest priorityList l = none ↔ ∀ d ∈ l, deviceRank priorityList d = none := by
  induction l with
  | nil => simp [pickBest]
  | cons device rest ih =>
    simp only [pickBest]
    cases hr : deviceRank priorityList device with
    | none => simp [hr, ih]
    | some r =>
      constructor
      · intro h
        cases hp : pickBest priorityList rest <;> simp [hp] at h
        obtain ⟨d', r'⟩ := ‹_ × _›
        split at h <;> simp at h
      · intro h
        have := h device (by simp)
        simp [hr] at this

theorem pickBest_first_minimal (priorityList : List String) (l : List AudioDevice)
    (d : AudioDevice) (r : Nat) (h : pickBest priorityList l = some (d, r)) :
    deviceRank priorityList d = some r ∧
      ∃ pre post, l = pre ++ d :: post ∧
        (∀ x ∈ pre, ∀ s, deviceRank priorityList x = some s → r < s) ∧
        (∀ x ∈ post, ∀ s, deviceRank priorityList x = some s → r ≤ s) := by
  induction l generalizing d r with
  | nil => simp [pickBest] at h
  | cons device rest ih =>
    simp only [pickBest] at h
    cases hr : deviceRank priorityList device with
    | none =>
      rw [hr] at h
      obtain ⟨hrank, pre, post, hsplit, hpre, hpost⟩ := ih d r h
      refine ⟨hrank, device :: pre, post, by simp [hsplit], ?_, hpost⟩
      intro x hx s hs
      rcases List.mem_cons.mp hx with hx | hx
      · subst hx; rw [hr] at hs; cases hs
      · exact hpre x hx s hs
    | some ra =>
      rw [hr] at h
      cases hp : pickBest priorityList rest with
      | none =>
        rw [hp] at h
        obtain ⟨rfl, rfl⟩ : device = d ∧ ra = r := by
          simpa using h
        refine ⟨hr, [], rest, rfl, by simp, ?_⟩
        intro x hx s hs
        have := (pickBest_eq_none_iff priorityList rest).mp hp x hx
        rw [this] at hs; cases hs
      | some dr =>
        obtain ⟨d', r'⟩ := dr
        rw [hp] at h
        dsimp only at h
        obtain ⟨hrank', pre', post', hsplit', hpre', hpost'⟩ := ih d' r' hp
        by_cases hle : ra ≤ r'
        · rw [if_pos hle] at h
          obtain ⟨rfl, rfl⟩ : device = d ∧ ra = r := by simpa using h
          refine ⟨hr, [], rest, rfl, by simp, ?_⟩
          intro x hx s hs
          rw [hsplit'] at hx
          rcases List.mem_append.mp hx with hx | hx
          · exact le_of_lt (lt_of_le_of_lt hle (hpre' x hx s hs))
          · rcases List.mem_cons.mp hx with hx | hx
            · subst hx
              rw [hrank'] at hs
              injection hs with hs
              omega
            · exact hle.trans (hpost' x hx s hs)
        · rw [if_neg hle] at h
          obtain ⟨rfl, rfl⟩ : d' = d ∧ r' = r := by simpa using h
          refine ⟨hrank', device :: pre', post', by simp [hsplit'], ?_, hpost'⟩
          intro x hx s hs
          rcases List.mem_cons.mp hx with hx | hx
          · subst hx
            rw [hr] at hs
            injection hs with hs
            omega
          · exact hpre' x hx s hs

theorem monitorGo_eq_go (priorityList : List String) (l : List AudioDevice)
    (best : Option AudioDevice) (bestRank : Option Nat) :
    monitorGetHighestPriorityDeviceGo priorityList l best bestRank =
      getHighestPriorityDeviceGo priorityList l best bestRank := by
  induction l generalizing best bestRank with
  | nil => rfl
  | cons device rest ih =>
    simp only [monitorGetHighestPriorityDeviceGo, getHighestPriorityDeviceGo]
    cases deviceRank priorityList device with
    | none => exact ih best bestRank
    | some r =>
      cases bestRank with
      | none => exact ih (some device) (some r)
      | some br => by_cases h : r < br <;> simp [h, ih]

theorem refreshGo_eq_go (priorityList : List String) (l : List AudioDevice)
    (best : Option AudioDevice) (bestRank : Option Nat) :
    refreshGetHighestPriorityDeviceGo priorityList l best bestRank =
      getHighestPriorityDeviceGo priorityList l best bestRank := by
  induction l generalizing best bestRank with
  | nil => rfl
  | cons device rest ih =>
    simp only [refreshGetHighestPriorityDeviceGo, getHighestPriorityDeviceGo]
    cases deviceRank priorityList device with
    | none => exact ih best bestRank
    | some r =>
      cases bestRank with
      | none => exact ih (some device) (some r)
      | some br => by_cases h : r < br <;> simp [h, ih]

/-- Claim C1: `getHighestPriorityDevice` returns `none` exactly when no live
device name matches any priority-list entry case-insensitively; whenever it
returns a device, that device carries a rank and sits at the first enumeration
position attaining the numerically smallest rank (so first-encountered wins at
equal minimal rank); and on the spec scenario with priority list
`AirPods, MacBook Pro Speakers` and live devices
`MacBook Pro Speakers, AirPods` it returns the AirPods. -/
theorem getHighestPriorityDevice_spec (devices : List AudioDevice) (priorityList : List String) :
    (getHighestPriorityDevice devices priorityList = none ↔
      ∀ d ∈ devices, deviceRank priorityList d = none)
    ∧ (∀ d, getHighestPriorityDevice devices priorityList = some d →
        FirstAtMinimalRank devices priorityList d)
    ∧ getHighestPriorityDevice [macbookProSpeakers, airPodsDevice]
        ["AirPods", "MacBook Pro Speakers"] = some airPodsDevice := by
  refine ⟨?_, ?_, by decide⟩
  · rw [getHighestPriorityDevice, getHighestPriorityDeviceGo_none, Option.map_eq_none']
    exact pickBest_eq_none_iff priorityList devices
  · intro d h
    rw [getHighestPriorityDevice, getHighestPriorityDeviceGo_none] at h
    cases hp : pickBest priorityList devices with
    | none => rw [hp] at h; cases h
    | some dr =>
      obtain ⟨d0, r⟩ := dr
      rw [hp] at h
      obtain rfl : d0 = d := by simpa using h
      obtain ⟨hrank, pre, post, hsplit, hpre, hpost⟩ :=
        pickBest_first_minimal priorityList devices d0 r hp
      exact ⟨pre, post, r, hsplit, hrank, hpre, hpost⟩

/-- Witness for claim C1 at the spec scenario: the AirPods device is indeed
the first device at minimal rank. -/
theorem getHighestPriorityDevice_spec_witness :
    FirstAtMinimalRank [macbookProSpeakers, airPodsDevice]
      ["AirPods", "MacBook Pro Speakers"] airPodsDevice :=
  (getHighestPriorityDevice_spec [macbookProSpeakers, airPodsDevice]
    ["AirPods", "MacBook Pro Speakers"]).2.1 airPodsDevice (by decide)

/-- Claim C10: the copies of `getHighestPriorityDevice` written inline in the
background monitor and in the manual refresh agree with the exported
`getHighestPriorityDevice` of `priority-utils.ts` on every input. -/
theorem inline_getHighestPriorityDevice_eq (devices : List AudioDevice)
    (priorityList : List String) :
    monitorGetHighestPriorityDevice devices priorityList
        = getHighestPriorityDevice devices priorityList
    ∧ refreshGetHighestPriorityDevice devices priorityList
        = getHighestPriorityDevice devices priorityList :=
  ⟨monitorGo_eq_go priorityList devices none none,
   refreshGo_eq_go priorityList devices none none⟩

/-- Claim C9: the gate decision does not read the cache timestamp: two cached
verdicts differing only in `lastUpdate` yield the same `needsFullCheck`
verdict on identical remaining inputs. -/
theorem gate_ignores_lastUpdate (cached : CachedState) (t t' : Option Nat)
    (outputDirty inputDirty : Bool) (currentOutput currentInput : AudioDevice)
    (availableOutputDevices availableInputDevices : List AudioDevice) :
    needsFullCheck { cached with lastUpdate := t } outputDirty inputDirty
        currentOutput currentInput availableOutputDevices availableInputDevices
      = needsFullCheck { cached with lastUpdate := t' } outputDirty inputDirty
        currentOutput currentInput availableOutputDevices availableInputDevices := rfl

/-- Claim C8: when `findIndex` locates the device name at position `i`,
`moveUp` swaps positions `i` and `i - 1` for `i > 0` leaving every other
position and the length unchanged, and is the identity for `i = 0`. -/
theorem moveUp_spec (currentList : List String) (deviceName : String) (i : Nat)
    (hfind : currentList.findIdx? (fun name => jsToLower name == jsToLower deviceName)
      = some i) :
    (i = 0 → moveUp currentList deviceName = currentList)
    ∧ (0 < i →
        (moveUp currentList deviceName).length = currentList.length
        ∧ (moveUp currentList deviceName)[i - 1]? = currentList[i]?
        ∧ (moveUp currentList deviceName)[i]? = currentList[i - 1]?
        ∧ ∀ j, j ≠ i → j ≠ i - 1 → (moveUp currentList deviceName)[j]? = currentList[j]?) := by
  have hi : i < currentList.length :=
    (List.findIdx?_eq_some_iff_findIdx_eq.mp hfind).1
  constructor
  · intro h0
    simp [moveUp, hfind, h0]
  · intro hpos
    have hne : i - 1 ≠ i := by omega
    have hi1 : i - 1 < currentList.length := by omega
    have hmv : moveUp currentList deviceName =
        List.set (currentList.set i (currentList.getD (i - 1) "")) (i - 1)
          (currentList.getD i "") := by
      simp [moveUp, hfind, hpos]
    have hatIdx : currentList.getD i "" = currentList[i] := by
      rw [List.getD_eq_getElem?_getD, List.getElem?_eq_getElem hi]; rfl
    have habove : currentList.getD (i - 1) "" = currentList[i - 1] := by
      rw [List.getD_eq_getElem?_getD, List.getElem?_eq_getElem hi1]; rfl
    refine ⟨by simp [hmv], ?_, ?_, ?_⟩
    · rw [hmv, List.getElem?_set_self', List.getElem?_set_ne (by omega),
        List.getElem?_eq_getElem hi1, hatIdx, List.getElem?_eq_getElem hi]
      rfl
    · rw [hmv, List.getElem?_set_ne hne, List.getElem?_set_self',
        List.getElem?_eq_getElem hi, habove, List.getElem?_eq_getElem hi1]
      rfl
    · intro j hji hji1
      rw [hmv, List.getElem?_set_ne (fun h => hji1 h.symm),
        List.getElem?_set_ne (fun h => hji h.symm)]

/-- Witness for claim C8 on the list `a, b, c` moving `B` up from index 1. -/
theorem moveUp_spec_witness :
    (moveUp ["a", "b", "c"] "B")[0]? = some "b"
      ∧ (moveUp ["a", "b", "c"] "B")[1]? = some "a" := by
  have h := (moveUp_spec ["a", "b", "c"] "B" 1 (by decide)).2 (by decide)
  exact ⟨h.2.1, h.2.2.1⟩

theorem contains_lowered_names_eq_any (devs : List AudioDevice) (n : String) :
    ((devs.map (fun d => jsToLower d.name)).contains (jsToLower n))
      = devs.any (fun d => jsToLower d.name == jsToLower n) := by
  induction devs with
  | nil => rfl
  | cons d rest ih =>
    simp only [List.map_cons, List.contains_cons, List.any_cons, ih]
    rw [Bool.beq_comm]

theorem availablePriorities_eq_filter (cachedList : Option (List String))
    (availableDevices : List AudioDevice) :
    availablePriorities cachedList availableDevices
      = (cachedList.getD []).filter
          (fun n => availableDevices.any (fun d => jsToLower d.name == jsToLower n)) := by
  unfold availablePriorities
  exact List.filter_congr (fun x _ => contains_lowered_names_eq_any availableDevices x)

theorem isClassOptimal_false_iff (availPriorities : List String) (currentName : String) :
    isClassOptimal availPriorities currentName = false ↔
      ∃ h rest, availPriorities = h :: rest ∧ jsToLower h ≠ jsToLower currentName := by
  cases availPriorities with
  | nil => simp [isClassOptimal]
  | cons h rest =>
    simp [isClassOptimal]

/-- Claim C2: the gate requires a full pass exactly when a dirty flag is set,
or an active uid differs from the cached uid, or some class has a non-empty
filtered cached priority list whose first surviving name differs
case-insensitively from the active device name; an empty filtered list
contributes no mismatch. -/
theorem needsFullCheck_spec (cached : CachedState) (outputDirty inputDirty : Bool)
    (currentOutput currentInput : AudioDevice)
    (availableOutputDevices availableInputDevices : List AudioDevice) :
    needsFullCheck cached outputDirty inputDirty currentOutput currentInput
        availableOutputDevices availableInputDevices = true ↔
      ((outputDirty = true ∨ inputDirty = true)
        ∨ (some currentOutput.uid ≠ cached.outputUID ∨ some currentInput.uid ≠ cached.inputUID)
        ∨ ClassMismatchSpec (cached.outputPriorityList.getD []) availableOutputDevices
            currentOutput.name
        ∨ ClassMismatchSpec (cached.inputPriorityList.getD []) availableInputDevices
            currentInput.name) := by
  have ho : ((!isClassOptimal (availablePriorities cached.outputPriorityList
        availableOutputDevices) currentOutput.name) = true) ↔
      ClassMismatchSpec (cached.outputPriorityList.getD []) availableOutputDevices
        currentOutput.name := by
    rw [Bool.not_eq_true', isClassOptimal_false_iff, availablePriorities_eq_filter]
    exact Iff.rfl
  have hi : ((!isClassOptimal (availablePriorities cached.inputPriorityList
        availableInputDevices) currentInput.name) = true) ↔
      ClassMismatchSpec (cached.inputPriorityList.getD []) availableInputDevices
        currentInput.name := by
    rw [Bool.not_eq_true', isClassOptimal_false_iff, availablePriorities_eq_filter]
    exact Iff.rfl
  rw [needsFullCheck]
  simp only [Bool.or_eq_true, bne_iff_ne, ne_eq]
  rw [ho, hi]
  tauto

/-- Witness for claim C2: with the output dirty flag set the gate fires on a
concrete input. -/
theorem needsFullCheck_spec_witness :
    needsFullCheck { outputUID := some "BuiltInSpeakerDevice", inputUID := some "usb-mic-uid" }
        true false macbookProSpeakers usbMicDevice [] [] = true :=
  (needsFullCheck_spec
      { outputUID := some "BuiltInSpeakerDevice", inputUID := some "usb-mic-uid" }
      true false macbookProSpeakers usbMicDevice [] []).mpr
    (Or.inl (Or.inl rfl))

/-- Claim C6 amendment: the stored blob is discarded and the record deleted
only when `JSON.parse` raises; a blob parsing to a non-array value yields the
empty list with the record kept; an array payload is returned as parsed; a
parse failure never escapes the `catch` handler. -/
theorem getOutputPriorityList_corrupt_amended (parse : String → ParseOutcome)
    (stored : Option String) :
    (∀ s, stored = some s → s.isEmpty = false → parse s = ParseOutcome.raises →
        getOutputPriorityListBody parse stored = Except.error ()
          ∧ getOutputPriorityList parse stored = ([], true))
    ∧ (∀ e, getOutputPriorityListBody parse stored = Except.error e →
        getOutputPriorityList parse stored = ([], true))
    ∧ (∀ s, stored = some s → s.isEmpty = false → parse s = ParseOutcome.nonArray →
        getOutputPriorityList parse stored = ([], false))
    ∧ (∀ s xs, stored = some s → s.isEmpty = false → parse s = ParseOutcome.arrayOf xs →
        getOutputPriorityList parse stored = (xs, false)) := by
  refine ⟨?_, ?_, ?_, ?_⟩
  · intro s hs hempty hparse
    subst hs
    constructor <;> simp [getOutputPriorityListBody, getOutputPriorityList, hempty, hparse]
  · intro e herr
    simp [getOutputPriorityList, herr]
  · intro s hs hempty hparse
    subst hs
    simp [getOutputPriorityList, getOutputPriorityListBody, hempty, hparse]
  · intro s xs hs hempty hparse
    subst hs
    simp [getOutputPriorityList, getOutputPriorityListBody, hempty, hparse]

/-- Counterexample to claim C6 as stated: the blob `42` is corrupt in the
claim sense (valid JSON that is not an array of names), yet
`getOutputPriorityList` returns the empty list with the record NOT removed
(second component `false`), contradicting the claimed self-heal deletion. -/
theorem getOutputPriorityList_nonArray_cex :
    getOutputPriorityList (fun _ => ParseOutcome.nonArray) (some "42") = ([], false) := rfl

/-- Witness for claim C6 on an unparseable blob: empty list and record
removed. -/
theorem getOutputPriorityList_corrupt_witness :
    getOutputPriorityList (fun _ => ParseOutcome.raises) (some "oops") = ([], true) :=
  ((getOutputPriorityList_corrupt_amended (fun _ => ParseOutcome.raises) (some "oops")).1
    "oops" rfl rfl rfl).2

theorem getElem?_some_lt {α : Type} (l : List α) (n : Nat) (a : α) (h : l[n]? = some a) :
    n < l.length := by
  by_contra hn
  rw [List.getElem?_eq_none (by omega)] at h
  cases h

theorem set_getElem?_self {α : Type} (l : List α) (i : Nat) (a : α) (h : l[i]? = some a) :
    l.set i a = l := by
  induction l generalizing i with
  | nil => rfl
  | cons x xs ih =>
    cases i with
    | zero =>
      simp only [List.getElem?_cons_zero, Option.some_inj] at h
      simp [List.set, h]
    | succ j =>
      simp only [List.getElem?_cons_succ] at h
      simp [List.set, ih j h]

theorem filter_names_comm (devices : List AudioDevice) (p : String → Bool) :
    (devices.filter (fun d => p d.name)).map (fun d => d.name)
      = (devices.map (fun d => d.name)).filter p := by
  induction devices with
  | nil => rfl
  | cons d rest ih =>
    by_cases h : p d.name = true
    · simp [List.filter_cons, h, ih]
    · simp only [Bool.not_eq_true] at h
      simp [List.filter_cons, h, ih]

/-- Claim C3 amendment: when the live device names are pairwise distinct
case-insensitively and the stored priority list is duplicate-free
case-insensitively, the auto-append step leaves every live device name in the
resulting list exactly once (case-insensitively); unconditionally the result
is the old list followed by the missing names in enumeration order (a sublist
of the enumerated names, none of which was present before), and the inline
auto-append of `ListDevices` computes the same list as
`ensureAllDevicesInPriorityList`. -/
theorem autoAppend_exactlyOnce_amended (devices : List AudioDevice) (plist : List String) :
    ((devices.map (fun d => jsToLower d.name)).Nodup → (plist.map jsToLower).Nodup →
      ∀ d ∈ devices, countName (ensureAllDevicesInPriorityList devices plist) d.name = 1)
    ∧ (∃ newNames, ensureAllDevicesInPriorityList devices plist = plist ++ newNames
        ∧ newNames.Sublist (devices.map (fun d => d.name))
        ∧ ∀ n ∈ newNames, ∀ q ∈ plist, jsToLower q ≠ jsToLower n)
    ∧ listDevicesAutoAppend devices plist = ensureAllDevicesInPriorityList devices plist := by
  refine ⟨?_, ?_, ?_⟩
  · intro hd hp d hdmem
    rw [ensureAllDevicesInPriorityList, countName, List.map_append, List.count_append]
    by_cases hin : jsToLower d.name ∈ plist.map jsToLower
    · have h1 : (plist.map jsToLower).count (jsToLower d.name) = 1 :=
        List.count_eq_one_of_mem hp hin
      have h2 : jsToLower d.name ∉
          ((devices.map (fun x => x.name)).filter
            (fun name => !(plist.any (fun pn => jsToLower pn == jsToLower name)))).map jsToLower := by
        intro hmem
        obtain ⟨x, hx, hxeq⟩ := List.mem_map.mp hmem
        have hxp := List.of_mem_filter hx
        rw [Bool.not_eq_true', List.any_eq_false] at hxp
        obtain ⟨q, hq, hqeq⟩ := List.mem_map.mp hin
        exact hxp q hq (by rw [beq_iff_eq, hqeq, ← hxeq])
      rw [h1, List.count_eq_zero.mpr h2]
    · have h1 : (plist.map jsToLower).count (jsToLower d.name) = 0 :=
        List.count_eq_zero.mpr hin
      have hdpred : (!(plist.any (fun pn => jsToLower pn == jsToLower d.name))) = true := by
        rw [Bool.not_eq_true', List.any_eq_false]
        intro q hq hbeq
        rw [beq_iff_eq] at hbeq
        exact hin (List.mem_map.mpr ⟨q, hq, hbeq⟩)
      have hmem : d.name ∈ (devices.map (fun x => x.name)).filter
          (fun name => !(plist.any (fun pn => jsToLower pn == jsToLower name))) :=
        List.mem_filter.mpr ⟨List.mem_map.mpr ⟨d, hdmem, rfl⟩, hdpred⟩
      have hnodup : (((devices.map (fun x => x.name)).filter
          (fun name => !(plist.any (fun pn => jsToLower pn == jsToLower name)))).map
            jsToLower).Nodup := by
        have hsub := (List.filter_sublist (devices.map (fun x => x.name))
          (p := fun name => !(plist.any (fun pn => jsToLower pn == jsToLower name)))).map jsToLower
        rw [List.map_map] at hsub
        exact hd.sublist hsub
      have h2 := List.count_eq_one_of_mem hnodup (List.mem_map.mpr ⟨d.name, hmem, rfl⟩)
      rw [h1, h2]
  · refine ⟨(devices.map (fun d => d.name)).filter
        (fun name => !(plist.any (fun pn => jsToLower pn == jsToLower name))),
      by rw [ensureAllDevicesInPriorityList], List.filter_sublist _, ?_⟩
    intro n hn q hq
    have hnpred := List.of_mem_filter hn
    rw [Bool.not_eq_true', List.any_eq_false] at hnpred
    intro heq
    exact hnpred q hq (by rw [beq_iff_eq]; exact heq)
  · rw [listDevicesAutoAppend, ensureAllDevicesInPriorityList,
      filter_names_comm devices
        (fun s => !(plist.any (fun name => jsToLower name == jsToLower s)))]

/-- Counterexample to claim C3 as stated: two live devices whose names differ
only in letter case are both appended to the empty priority list, so their
shared case-insensitive name occurs twice, not exactly once. -/
theorem autoAppend_duplicate_cex :
    airPodsDevice ∈ [airPodsDevice, airPodsLowercaseDevice]
    ∧ countName (ensureAllDevicesInPriorityList [airPodsDevice, airPodsLowercaseDevice] [])
        airPodsDevice.name = 2 := by decide

/-- Witness for claim C3 on a live AirPods device against a priority list
holding only the speakers. -/
theorem autoAppend_exactlyOnce_witness :
    countName (ensureAllDevicesInPriorityList [airPodsDevice] ["MacBook Pro Speakers"])
      airPodsDevice.name = 1 :=
  (autoAppend_exactlyOnce_amended [airPodsDevice] ["MacBook Pro Speakers"]).1
    (by decide) (by decide) airPodsDevice (by decide)

theorem findIdx?_name_hit (e : List StoredDeviceInfo) (nm : String) (k : Nat)
    (h : e.findIdx? (fun info => info.name == nm) = some k) :
    k < e.length ∧ ∃ a, e[k]? = some a ∧ a.name = nm := by
  have hk : k < e.length := (List.findIdx?_eq_some_iff_findIdx_eq.mp h).1
  have hp := List.findIdx?_of_eq_some h
  refine ⟨hk, ?_⟩
  cases ha : e[k]? with
  | none => rw [ha] at hp; cases hp
  | some a =>
    rw [ha] at hp
    exact ⟨a, rfl, by simpa [beq_iff_eq] using hp⟩

theorem mergeStep_length_le (e : List StoredDeviceInfo) (d : AudioDevice) :
    e.length ≤ (mergeStep e d).length := by
  rw [mergeStep]
  cases h : e.findIdx? (fun info => info.name == d.name) with
  | none => simp
  | some idx => simp

theorem mergeStep_name_at (e : List StoredDeviceInfo) (d : AudioDevice) (k : Nat)
    (hk : k < e.length) :
    ((mergeStep e d)[k]?).map (fun i => i.name) = (e[k]?).map (fun i => i.name) := by
  rw [mergeStep]
  cases h : e.findIdx? (fun info => info.name == d.name) with
  | none => rw [List.getElem?_append_left hk]
  | some idx =>
    obtain ⟨hidx, a, ha, haname⟩ := findIdx?_name_hit e d.name idx h
    by_cases hke : k = idx
    · subst hke
      rw [List.getElem?_set_self', ha]
      simp [haname]
    · rw [List.getElem?_set_ne (fun hh => hke hh.symm)]

theorem merge_name_at (current : List AudioDevice) (e : List StoredDeviceInfo) (k : Nat)
    (hk : k < e.length) :
    ((mergeDeviceInfo e current)[k]?).map (fun i => i.name)
      = (e[k]?).map (fun i => i.name) := by
  induction current generalizing e with
  | nil => rfl
  | cons d rest ih =>
    rw [mergeDeviceInfo, List.foldl_cons]
    have hk2 : k < (mergeStep e d).length := lt_of_lt_of_le hk (mergeStep_length_le e d)
    calc ((List.foldl mergeStep (mergeStep e d) rest)[k]?).map (fun i => i.name)
        = (((mergeDeviceInfo (mergeStep e d) rest))[k]?).map (fun i => i.name) := rfl
      _ = ((mergeStep e d)[k]?).map (fun i => i.name) := ih (mergeStep e d) hk2
      _ = (e[k]?).map (fun i => i.name) := mergeStep_name_at e d k hk

theorem mergeStep_names (e : List StoredDeviceInfo) (d : AudioDevice) :
    (mergeStep e d).map (fun i => i.name)
      = if d.name ∈ e.map (fun i => i.name) then e.map (fun i => i.name)
        else e.map (fun i => i.name) ++ [d.name] := by
  rw [mergeStep]
  cases h : e.findIdx? (fun info => info.name == d.name) with
  | none =>
    have hmem : d.name ∉ e.map (fun i => i.name) := by
      rw [List.findIdx?_eq_none_iff] at h
      intro hmem
      obtain ⟨a, ha, haeq⟩ := List.mem_map.mp hmem
      have := h a ha
      rw [haeq] at this
      simp at this
    simp [hmem]
  | some idx =>
    obtain ⟨hidx, a, ha, haname⟩ := findIdx?_name_hit e d.name idx h
    have hmem : d.name ∈ e.map (fun i => i.name) :=
      List.mem_map.mpr ⟨a, List.getElem?_mem ha, haname⟩
    rw [if_pos hmem, List.map_set]
    apply set_getElem?_self
    rw [List.getElem?_map, ha]
    simp [haname]

theorem merge_names_tail (current : List AudioDevice) (e : List StoredDeviceInfo) :
    ∃ tail, (mergeDeviceInfo e current).map (fun i => i.name)
        = e.map (fun i => i.name) ++ tail
      ∧ ∀ n ∈ tail, n ∉ e.map (fun i => i.name) ∧ ∃ d ∈ current, d.name = n := by
  induction current generalizing e with
  | nil => exact ⟨[], by simp [mergeDeviceInfo], by simp⟩
  | cons d rest ih =>
    rw [mergeDeviceInfo, List.foldl_cons]
    obtain ⟨tail, htail, hprops⟩ := ih (mergeStep e d)
    by_cases hmem : d.name ∈ e.map (fun i => i.name)
    · refine ⟨tail, ?_, ?_⟩
      · rw [show List.foldl mergeStep (mergeStep e d) rest = mergeDeviceInfo (mergeStep e d) rest
            from rfl, htail, mergeStep_names, if_pos hmem]
      · intro n hn
        obtain ⟨hnot, d', hd', hname⟩ := hprops n hn
        rw [mergeStep_names, if_pos hmem] at hnot
        exact ⟨hnot, d', List.mem_cons_of_mem d hd', hname⟩
    · refine ⟨d.name :: tail, ?_, ?_⟩
      · rw [show List.foldl mergeStep (mergeStep e d) rest = mergeDeviceInfo (mergeStep e d) rest
            from rfl, htail, mergeStep_names, if_neg hmem]
        simp
      · intro n hn
        rcases List.mem_cons.mp hn with hn | hn
        · exact ⟨hn ▸ hmem, d, List.mem_cons_self d rest, hn.symm⟩
        · obtain ⟨hnot, d', hd', hname⟩ := hprops n hn
          rw [mergeStep_names, if_neg hmem] at hnot
          exact ⟨fun hc => hnot (List.mem_append_left _ hc), d',
            List.mem_cons_of_mem d hd', hname⟩

theorem mergeStep_untouched (e : List StoredDeviceInfo) (d : AudioDevice) (k : Nat)
    (info : StoredDeviceInfo) (h : e[k]? = some info) (hne : d.name ≠ info.name) :
    (mergeStep e d)[k]? = some info := by
  rw [mergeStep]
  cases hf : e.findIdx? (fun i => i.name == d.name) with
  | none => rw [List.getElem?_append_left (getElem?_some_lt e k info h), h]
  | some idx =>
    obtain ⟨hidx, a, ha, haname⟩ := findIdx?_name_hit e d.name idx hf
    have hkidx : idx ≠ k := by
      intro hh
      subst hh
      rw [ha] at h
      injection h with h
      exact hne (by rw [← haname, h])
    rw [List.getElem?_set_ne hkidx, h]

theorem merge_untouched (current : List AudioDevice) (e : List StoredDeviceInfo) (k : Nat)
    (info : StoredDeviceInfo) (h : e[k]? = some info)
    (hnone : ∀ d ∈ current, d.name ≠ info.name) :
    (mergeDeviceInfo e current)[k]? = some info := by
  induction current generalizing e with
  | nil => exact h
  | cons d rest ih =>
    rw [mergeDeviceInfo, List.foldl_cons]
    exact ih (mergeStep e d)
      (mergeStep_untouched e d k info h (hnone d (List.mem_cons_self d rest)))
      (fun d' hd' => hnone d' (List.mem_cons_of_mem d hd'))

theorem merge_current_present (current : List AudioDevice) (e : List StoredDeviceInfo)
    (d : AudioDevice) (hd : d ∈ current) :
    ∃ t, (⟨d.name, t⟩ : StoredDeviceInfo) ∈ mergeDeviceInfo e current
      ∧ ∃ d' ∈ current, d'.name = d.name ∧ d'.transportType = t := by
  induction current generalizing e d with
  | nil => cases hd
  | cons d0 rest ih =>
    rw [mergeDeviceInfo, List.foldl_cons]
    by_cases hc : ∃ d' ∈ rest, d'.name = d.name
    · obtain ⟨d', hd', hdname⟩ := hc
      obtain ⟨t, hmem, d'', hd'', hname'', htt⟩ := ih (mergeStep e d0) d' hd'
      rw [hdname] at hmem
      exact ⟨t, hmem, d'', List.mem_cons_of_mem d0 hd'',
        by rw [hname'', hdname], htt⟩
    · have hd0 : d = d0 := by
        rcases List.mem_cons.mp hd with hh | hh
        · exact hh
        · exact absurd ⟨d, hh, rfl⟩ hc
      subst hd0
      have hrest : ∀ d' ∈ rest, d'.name ≠ d.name := by
        intro d' hd' hh
        exact hc ⟨d', hd', hh⟩
      have hstep : ∃ k : Nat,
          (mergeStep e d)[k]? = some (⟨d.name, d.transportType⟩ : StoredDeviceInfo) := by
        rw [mergeStep]
        cases hf : e.findIdx? (fun i => i.name == d.name) with
        | none => exact ⟨e.length, List.getElem?_concat_length e _⟩
        | some idx =>
          obtain ⟨hidx, a, ha, _⟩ := findIdx?_name_hit e d.name idx hf
          refine ⟨idx, ?_⟩
          rw [List.getElem?_set_self', ha]
          rfl
      obtain ⟨k, hk⟩ := hstep
      refine ⟨d.transportType, ?_, d, List.mem_cons_self d rest, rfl, rfl⟩
      exact List.getElem?_mem
        (merge_untouched rest (mergeStep e d) k ⟨d.name, d.transportType⟩ hk hrest)

/-- Claim C7 amendment: `mergeDeviceInfo` is a by-name upsert under EXACT
(case-sensitive) string equality of names: every existing position keeps its
name (so nothing is removed or reordered), the names appended beyond the
existing entries are exactly drawn from the snapshot and were not present
before, and every snapshot device ends up recorded under its exact name with a
transport type taken from the snapshot. -/
theorem mergeDeviceInfo_upsert_amended (existing : List StoredDeviceInfo)
    (current : List AudioDevice) :
    (∀ (k : Nat) (info : StoredDeviceInfo), existing[k]? = some info →
        ∃ info' : StoredDeviceInfo, (mergeDeviceInfo existing current)[k]? = some info'
          ∧ info'.name = info.name)
    ∧ (∃ tail, (mergeDeviceInfo existing current).map (fun i => i.name)
          = existing.map (fun i => i.name) ++ tail
        ∧ ∀ n ∈ tail, n ∉ existing.map (fun i => i.name) ∧ ∃ d ∈ current, d.name = n)
    ∧ (∀ d ∈ current, ∃ t,
        (⟨d.name, t⟩ : StoredDeviceInfo) ∈ mergeDeviceInfo existing current
          ∧ ∃ d' ∈ current, d'.name = d.name ∧ d'.transportType = t) := by
  refine ⟨?_, merge_names_tail current existing, ?_⟩
  · intro k info hinfo
    have hk : k < existing.length := getElem?_some_lt existing k info hinfo
    have := merge_name_at current existing k hk
    rw [hinfo] at this
    obtain ⟨info', hinfo', hname⟩ := Option.map_eq_some'.mp this
    exact ⟨info', hinfo', hname⟩
  · intro d hd
    exact merge_current_present current existing d hd

/-- Counterexample to claim C7 as stated: the snapshot name `AirPods` equals
the stored name `airpods` under the case-insensitive name identity, yet the
merge appends a second entry instead of replacing the stored entry in place. -/
theorem mergeDeviceInfo_caseSensitive_cex :
    mergeDeviceInfo [⟨"airpods", "usb"⟩] [airPodsDevice]
      = [⟨"airpods", "usb"⟩, ⟨"AirPods", "bluetooth"⟩]
    ∧ jsToLower "AirPods" = jsToLower "airpods" := by decide

/-- Witness for claim C7: merging a USB microphone snapshot into the empty
store records it under its exact name with its snapshot transport type. -/
theorem mergeDeviceInfo_upsert_witness :
    ∃ t, (⟨usbMicDevice.name, t⟩ : StoredDeviceInfo) ∈ mergeDeviceInfo [] [usbMicDevice]
      ∧ ∃ d' ∈ [usbMicDevice], d'.name = usbMicDevice.name ∧ d'.transportType = t :=
  (mergeDeviceInfo_upsert_amended [] [usbMicDevice]).2.2 usbMicDevice
    (List.mem_cons_self usbMicDevice [])

/-- Claim C4 amendment: when auto-switch is on, both active devices resolve,
and the gate is false, the pass reports the current active devices as status
and terminates; it performs no device-control call, no priority-list load and
no cache write — but it HAS already enumerated devices once per class during
signal collection (STEP 3.1), so the claimed `listDevices is never invoked`
does not hold; only the second (STEP 4) enumeration is skipped. -/
theorem fastPath_trace_amended (m : MonitorInputs) (out inp : AudioDevice)
    (hauto : m.prefs.enableAutoSwitch = true)
    (hout : m.currentOutput = some out) (hin : m.currentInput = some inp)
    (hgate : needsFullCheck m.cached m.outputDirty m.inputDirty out inp
      m.availableOutputDevices m.availableInputDevices = false) :
    runMonitor m = [MEvent.getActive true, MEvent.getActive false,
        MEvent.enumerate true, MEvent.enumerate false,
        MEvent.setStatus (MStatus.active out.name inp.name)]
    ∧ (∀ b, MEvent.loadPriorityList b ∉ runMonitor m)
    ∧ (∀ s, MEvent.setActiveOutput s ∉ runMonitor m
        ∧ MEvent.setActiveInput s ∉ runMonitor m
        ∧ MEvent.setSystem s ∉ runMonitor m)
    ∧ (∀ c, MEvent.writeCache c ∉ runMonitor m) := by
  have htrace : runMonitor m = [MEvent.getActive true, MEvent.getActive false,
      MEvent.enumerate true, MEvent.enumerate false,
      MEvent.setStatus (MStatus.active out.name inp.name)] := by
    rw [runMonitor, hauto, hout, hin]
    simp [hgate]
  refine ⟨htrace, ?_, ?_, ?_⟩
  · intro b
    rw [htrace]
    simp
  · intro s
    rw [htrace]
    simp
  · intro c
    rw [htrace]
    simp

/-- Counterexample to claim C4 as stated: on a concrete fast-path input (gate
false) the trace nevertheless contains an enumeration event, because the
monitor always enumerates available devices during signal collection before
deciding the gate. -/
theorem fastPath_enumeration_cex :
    needsFullCheck ⟨some "BuiltInSpeakerDevice", some "usb-mic-uid", none, none, none⟩
        false false macbookProSpeakers usbMicDevice [] [] = false
    ∧ MEvent.enumerate true ∈ runMonitor ⟨⟨true, true⟩, true,
        ⟨some "BuiltInSpeakerDevice", some "usb-mic-uid", none, none, none⟩,
        false, false, some macbookProSpeakers, some usbMicDevice,
        [], [], [], [], [], [], false, false, false, 0⟩ := by decide

/-- Witness for claim C4 on a concrete fast-path input. -/
theorem fastPath_trace_witness :
    runMonitor ⟨⟨true, true⟩, true,
        ⟨some "BuiltInSpeakerDevice", some "usb-mic-uid", none, none, none⟩,
        false, false, some macbookProSpeakers, some usbMicDevice,
        [], [], [], [], [], [], false, false, false, 0⟩
      = [MEvent.getActive true, MEvent.getActive false,
         MEvent.enumerate true, MEvent.enumerate false,
         MEvent.setStatus (MStatus.active macbookProSpeakers.name usbMicDevice.name)] :=
  (fastPath_trace_amended ⟨⟨true, true⟩, true,
      ⟨some "BuiltInSpeakerDevice", some "usb-mic-uid", none, none, none⟩,
      false, false, some macbookProSpeakers, some usbMicDevice,
      [], [], [], [], [], [], false, false, false, 0⟩
    macbookProSpeakers usbMicDevice rfl rfl rfl (by decide)).1

theorem runMonitor_full_pass_shape (m : MonitorInputs) (out inp : AudioDevice)
    (hauto : m.prefs.enableAutoSwitch = true)
    (hout : m.currentOutput = some out) (hin : m.currentInput = some inp)
    (hgate : needsFullCheck m.cached m.outputDirty m.inputDirty out inp
      m.availableOutputDevices m.availableInputDevices = true)
    (hnz : (m.outputDevices.length == 0 || m.inputDevices.length == 0) = false) :
    ∃ pre os is, runMonitor m = pre ++ [MEvent.setStatus (MStatus.priority os is)] := by
  rw [runMonitor, hauto, hout, hin]
  simp only [hgate, hnz, Bool.not_true, Bool.false_eq_true, if_false, if_true, ite_true,
    ite_false, Bool.true_and, and_true]
  exact ⟨_, _, _, rfl⟩

/-- Claim C5 amendment: a full pass aborts early with the no-devices status
and no switch attempted exactly when AT LEAST ONE class (output or input)
reports zero live devices after the STEP 4 enumeration — not only when both
do; whenever either class is empty the whole pass is abandoned, including the
class that still has live devices. -/
theorem noDevices_abort_amended (m : MonitorInputs) (out inp : AudioDevice)
    (hauto : m.prefs.enableAutoSwitch = true)
    (hout : m.currentOutput = some out) (hin : m.currentInput = some inp)
    (hgate : needsFullCheck m.cached m.outputDirty m.inputDirty out inp
      m.availableOutputDevices m.availableInputDevices = true) :
    ((m.outputDevices.length = 0 ∨ m.inputDevices.length = 0) ↔
      runMonitor m = [MEvent.getActive true, MEvent.getActive false,
        MEvent.enumerate true, MEvent.enumerate false,
        MEvent.enumerate true, MEvent.enumerate false,
        MEvent.loadPriorityList true, MEvent.loadPriorityList false,
        MEvent.setStatus MStatus.noDevicesAvailable])
    ∧ ((m.outputDevices.length = 0 ∨ m.inputDevices.length = 0) →
        ∀ s, MEvent.setActiveOutput s ∉ runMonitor m
          ∧ MEvent.setActiveInput s ∉ runMonitor m
          ∧ MEvent.setSystem s ∉ runMonitor m) := by
  have habort : (m.outputDevices.length = 0 ∨ m.inputDevices.length = 0) →
      runMonitor m = [MEvent.getActive true, MEvent.getActive false,
        MEvent.enumerate true, MEvent.enumerate false,
        MEvent.enumerate true, MEvent.enumerate false,
        MEvent.loadPriorityList true, MEvent.loadPriorityList false,
        MEvent.setStatus MStatus.noDevicesAvailable] := by
    intro hz
    have hcond : (m.outputDevices.length == 0 || m.inputDevices.length == 0) = true := by
      rcases hz with hz | hz <;> simp [hz]
    rw [runMonitor, hauto, hout, hin]
    simp [hgate, hcond]
  constructor
  · constructor
    · exact habort
    · intro heq
      by_contra hnz
      push_neg at hnz
      have hcond : (m.outputDevices.length == 0 || m.inputDevices.length == 0) = false := by
        simp [hnz.1, hnz.2]
      obtain ⟨pre, os, is, hshape⟩ :=
        runMonitor_full_pass_shape m out inp hauto hout hin hgate hcond
      rw [heq] at hshape
      have hlast := congrArg List.getLast? hshape
      rw [List.getLast?_concat] at hlast
      simp at hlast
  · intro hz s
    rw [habort hz]
    simp

/-- Counterexample to claim C5 as stated: with one live output device and an
empty input enumeration the pass still aborts with the no-devices status and
attempts no switch, although the claim says a pass with at least one
non-empty class continues and may switch that class. -/
theorem noDevices_abort_cex :
    ([macbookProSpeakers] : List AudioDevice).length ≠ 0
    ∧ runMonitor ⟨⟨true, true⟩, true, ⟨none, none, none, none, none⟩, true, false,
        some macbookProSpeakers, some usbMicDevice, [], [], [macbookProSpeakers], [],
        ["MacBook Pro Speakers"], [], false, false, false, 0⟩
      = [MEvent.getActive true, MEvent.getActive false,
         MEvent.enumerate true, MEvent.enumerate false,
         MEvent.enumerate true, MEvent.enumerate false,
         MEvent.loadPriorityList true, MEvent.loadPriorityList false,
         MEvent.setStatus MStatus.noDevicesAvailable] := by decide

/-- Witness for claim C5: both enumerations empty on a concrete full pass
gives the abort trace. -/
theorem noDevices_abort_witness :
    runMonitor ⟨⟨true, true⟩, true, ⟨none, none, none, none, none⟩, true, false,
        some macbookProSpeakers, some usbMicDevice, [], [], [], [],
        [], [], false, false, false, 0⟩
      = [MEvent.getActive true, MEvent.getActive false,
         MEvent.enumerate true, MEvent.enumerate false,
         MEvent.enumerate true, MEvent.enumerate false,
         MEvent.loadPriorityList true, MEvent.loadPriorityList false,
         MEvent.setStatus MStatus.noDevicesAvailable] :=
  ((noDevices_abort_amended ⟨⟨true, true⟩, true, ⟨none, none, none, none, none⟩, true, false,
      some macbookProSpeakers, some usbMicDevice, [], [], [], [],
      [], [], false, false, false, 0⟩
    macbookProSpeakers usbMicDevice rfl rfl rfl (by decide)).1).mp (Or.inl rfl)
